/-
Verification of the RSMI-NE coarse-graining layers
(coarsegrainer/src/cg_layers.py) against their specification.

Tensors are modelled shape-checked: a tensor is a shape (list of extents)
together with an entry function on multi-indices.  The two einsum layers
(Conv2DSingle.call with pattern tijk,ijs->tsk and Conv3DSingle.call with
pattern tijkl,ijks->tsl) return none exactly when the framework would raise
a shape error.  The CoarseGrainer constructor is modelled as an
Except-valued function mirroring the Python attribute-assignment flow:
referencing a never-assigned attribute yields PyError.attributeError.
The Gumbel-softmax temperature schedule is modelled over the reals.
-/
import Mathlib

/-- A tensor: a shape (list of axis extents, row-major) and an entry
function on multi-indices.  Entries outside the shape are junk. -/
structure Tensor where
  shape : List ℕ
  entry : List ℕ → ℚ

/-- Conv2DSingle.call: tf.einsum with pattern tijk,ijs->tsk.  The input must
have rank 4 (batch t, two spatial axes i j, one trailing axis k) and the
weights rank 3 with matching spatial extents; otherwise the framework
raises, which we model as none. -/
def conv2DSingleCall (inputs ws : Tensor) : Option Tensor :=
  match inputs.shape, ws.shape with
  | [t, i, j, k], [i2, j2, s] =>
    if i = i2 ∧ j = j2 then
      some ⟨[t, s, k], fun idx =>
        match idx with
        | [tt, ss, kk] =>
            ∑ ii ∈ Finset.range i, ∑ jj ∈ Finset.range j,
              inputs.entry [tt, ii, jj, kk] * ws.entry [ii, jj, ss]
        | _ => 0⟩
    else none
  | _, _ => none

/-- Conv3DSingle.call: tf.einsum with pattern tijkl,ijks->tsl.  The input
must have rank 5 (batch t, three spatial axes i j k, one trailing axis l)
and the weights rank 4 with matching spatial extents. -/
def conv3DSingleCall (inputs ws : Tensor) : Option Tensor :=
  match inputs.shape, ws.shape with
  | [t, i, j, k, l], [i2, j2, k2, s] =>
    if i = i2 ∧ j = j2 ∧ k = k2 then
      some ⟨[t, s, l], fun idx =>
        match idx with
        | [tt, ss, ll] =>
            ∑ ii ∈ Finset.range i, ∑ jj ∈ Finset.range j,
              ∑ kk ∈ Finset.range k,
                inputs.entry [tt, ii, jj, kk, ll] * ws.entry [ii, jj, kk, ss]
        | _ => 0⟩
    else none
  | _, _ => none

/-- Conv2DSingle.__init__ weight initialization: an explicitly supplied
ndarray is used verbatim, otherwise the random-normal draw (supplied here
as an explicit argument, since the draw is performed by the framework) is
used.  The hidden dimension and input shape only determine the shape of
the random draw, which the framework guarantees to be
input_shape ++ [hidden_dim]. -/
def conv2DSingleInit (hidden_dim : ℕ) (input_shape : List ℕ)
    (init_rule : Option Tensor) (randomDraw : Tensor) : Tensor :=
  match init_rule with
  | some a => a
  | none => randomDraw

/-- Conv3DSingle.__init__ weight initialization: the constructor takes no
init_rule parameter at all, so the weights are always the random-normal
draw. -/
def conv3DSingleInit (hidden_dim : ℕ) (input_shape : List ℕ)
    (randomDraw : Tensor) : Tensor :=
  randomDraw

/-- Tags for the activation layers that can occur in the assembled
pipeline: the fixed softmax inserted in the probability branches, or the
named activation (default tanh) of the non-embedding branch. -/
inductive ActKind where
  | softmax : ActKind
  | named : String → ActKind
deriving DecidableEq

/-- Tags for the stochastic embedding layer: the four
distribution/parameterization combinations the constructor can build. -/
inductive EmbedKind where
  | bernoulliProbs : EmbedKind
  | bernoulliLogits : EmbedKind
  | oneHotProbs : EmbedKind
  | oneHotLogits : EmbedKind
deriving DecidableEq

/-- A layer in the assembled tf.keras.Sequential pipeline. -/
inductive CGLayer where
  | conv2 : Tensor → CGLayer
  | conv3 : Tensor → CGLayer
  | activation : ActKind → CGLayer
  | flatten : CGLayer
  | embed : EmbedKind → CGLayer

/-- The three annealing scalars stored on the CoarseGrainer when h_embed is
true: self.r, self.min_tau and self.init_tau. -/
structure SchedParams where
  r : ℝ
  min_tau : ℝ
  init_tau : ℝ

/-- Errors the Python code can raise: attribute lookup on a never-assigned
attribute, the configuration error the spec asks for (never produced by
the source), and a runtime shape failure inside the tensor framework. -/
inductive PyError where
  | attributeError : PyError
  | invalidShapeError : PyError
  | runtimeError : PyError
deriving DecidableEq

/-- State of a constructed CoarseGrainer object.  Attributes the
constructor may leave unassigned are Option-valued. -/
structure CGModel where
  Nq : Option ℕ
  global_step : ℝ
  coarse_grainer : Option CGLayer
  method : Option String
  sched : Option SchedParams
  pipeline : Option (List CGLayer)

/-- The dimensionality dispatch of CoarseGrainer.__init__: len(ll) = 2
builds Conv2DSingle(num_hiddens, ll, init_rule); len(ll) = 3 builds
Conv3DSingle(num_hiddens, ll), dropping init_rule; any other length
assigns no linear stage. -/
def selectConv (ll : List ℕ) (num_hiddens : ℕ) (init_rule : Option Tensor)
    (randomDraw2 randomDraw3 : Tensor) : Option CGLayer :=
  if ll.length = 2 then
    some (.conv2 (conv2DSingleInit num_hiddens ll init_rule randomDraw2))
  else if ll.length = 3 then
    some (.conv3 (conv3DSingleInit num_hiddens ll randomDraw3))
  else none

/-- CoarseGrainer.__init__, in source order.  The random-normal draws the
framework would perform for the 2-d and 3-d weight initializers are passed
in explicitly.  Referencing self.coarse_grainer when it was never assigned
raises AttributeError, modelled as an error result; the branch with
h_embed true and both interpretation flags false references nothing and
returns normally with no pipeline assigned. -/
def mkCoarseGrainer (ll : List ℕ) (num_hiddens : ℕ) (conv_activation : String)
    (Nq : Option ℕ) (h_embed : Bool) (init_rule : Option Tensor)
    (relaxation_rate min_temperature init_temperature : ℝ)
    (use_logits use_probs : Bool)
    (randomDraw2 randomDraw3 : Tensor) : Except PyError CGModel :=
  let cg := selectConv ll num_hiddens init_rule randomDraw2 randomDraw3
  if h_embed then
    let sched : SchedParams :=
      ⟨relaxation_rate, min_temperature, init_temperature⟩
    match Nq with
    | none =>
      if use_probs then
        match cg with
        | some c => .ok ⟨Nq, 0, cg, some "pseudo-categorical sampling",
            some sched,
            some [c, .activation .softmax, .flatten, .embed .bernoulliProbs]⟩
        | none => .error .attributeError
      else if use_logits then
        match cg with
        | some c => .ok ⟨Nq, 0, cg, some "pseudo-categorical sampling",
            some sched, some [c, .flatten, .embed .bernoulliLogits]⟩
        | none => .error .attributeError
      else
        .ok ⟨Nq, 0, cg, some "pseudo-categorical sampling", some sched, none⟩
    | some _ =>
      if use_probs then
        match cg with
        | some c => .ok ⟨Nq, 0, cg, some "pseudo-categorical sampling",
            some sched,
            some [c, .activation .softmax, .flatten, .embed .oneHotProbs]⟩
        | none => .error .attributeError
      else if use_logits then
        match cg with
        | some c => .ok ⟨Nq, 0, cg, some "pseudo-categorical sampling",
            some sched, some [c, .flatten, .embed .oneHotLogits]⟩
        | none => .error .attributeError
      else
        .ok ⟨Nq, 0, cg, some "pseudo-categorical sampling", some sched, none⟩
  else
    match cg with
    | some c => .ok ⟨Nq, 0, cg, some "convolved variables", none,
        some [c, .activation (.named conv_activation), .flatten]⟩
    | none => .error .attributeError

/-- Row-major inverse of flattening: turn a linear index into a
multi-index for the given extents. -/
def unflattenIdx : List ℕ → ℕ → List ℕ
  | [], _ => []
  | _ :: ds, m => (m / ds.prod) :: unflattenIdx ds (m % ds.prod)

/-- tf.keras.layers.Flatten: collapse all axes after the batch axis into
one; fails on a rank-0 tensor. -/
def flattenLayer (x : Tensor) : Option Tensor :=
  match x.shape with
  | t :: rest => some ⟨[t, rest.prod], fun idx =>
      match idx with
      | [tt, m] => x.entry (tt :: unflattenIdx rest m)
      | _ => 0⟩
  | [] => none

/-- Run one pipeline layer.  Activation layers (elementwise nonlinearity
or softmax) and the stochastic embedding layer are delegated to the
framework and the distribution library; their semantics enter as the
abstract transformations act and sample. -/
def runLayer (act : ActKind → Tensor → Tensor)
    (sample : EmbedKind → Tensor → Tensor)
    (x : Tensor) : CGLayer → Option Tensor
  | .conv2 ws => conv2DSingleCall x ws
  | .conv3 ws => conv3DSingleCall x ws
  | .activation a => some (act a x)
  | .flatten => flattenLayer x
  | .embed k => some (sample k x)

/-- Run the assembled tf.keras.Sequential pipeline on an input batch. -/
def runPipeline (act : ActKind → Tensor → Tensor)
    (sample : EmbedKind → Tensor → Tensor)
    (layers : List CGLayer) (V : Tensor) : Option Tensor :=
  layers.foldlM (runLayer act sample) V

/-- CoarseGrainer.call: evaluate self._Λ on V.  If the pipeline attribute
was never assigned, the lookup raises AttributeError; a shape failure
inside the pipeline surfaces as a framework runtime error. -/
def callCG (act : ActKind → Tensor → Tensor)
    (sample : EmbedKind → Tensor → Tensor)
    (M : CGModel) (V : Tensor) : Except PyError Tensor :=
  match M.pipeline with
  | none => .error .attributeError
  | some L =>
    match runPipeline act sample L V with
    | some T => .ok T
    | none => .error .runtimeError

/-- The global_step setter: overwrite the counter with the given value. -/
def setGlobalStep (M : CGModel) (s : ℝ) : CGModel :=
  ⟨M.Nq, s, M.coarse_grainer, M.method, M.sched, M.pipeline⟩

/-- The annealing formula of the tau property:
max(min_tau, init_tau * exp(-r * step)). -/
noncomputable def tauFun (p : SchedParams) (s : ℝ) : ℝ :=
  max p.min_tau (p.init_tau * Real.exp (-(p.r * s)))

/-- Reading the tau property: recomputed from the current global step on
every read.  When h_embed was false the three annealing attributes were
never assigned and the read raises AttributeError. -/
noncomputable def tauRead (M : CGModel) : Except PyError ℝ :=
  match M.sched with
  | none => .error .attributeError
  | some p => .ok (tauFun p M.global_step)

/-- Whether a layer is the normalizing softmax activation. -/
def isSoftmaxLayer : CGLayer → Bool
  | .conv2 _ => false
  | .conv3 _ => false
  | .activation .softmax => true
  | .activation (.named _) => false
  | .flatten => false
  | .embed _ => false

/-- Whether the assembled pipeline contains the normalizing softmax
activation (false when no pipeline was assigned). -/
def hasSoftmax (M : CGModel) : Bool :=
  match M.pipeline with
  | none => false
  | some L => L.any isSoftmaxLayer

/-- The probability-parameterized embedding layer the constructor builds
for a given alphabet-size configuration. -/
def probsEmbed : Option ℕ → CGLayer
  | none => .embed .bernoulliProbs
  | some _ => .embed .oneHotProbs

/-- A shape-preserving stand-in for the framework activation functions,
used to instantiate witnesses. -/
def actId : ActKind → Tensor → Tensor := fun _ x => x

/-- A shape-preserving stand-in for the stochastic sampling stage, used to
instantiate witnesses. -/
def sampleId : EmbedKind → Tensor → Tensor := fun _ x => x

/-- A dummy tensor standing for a random draw whose value is irrelevant. -/
def dT : Tensor := ⟨[0], fun _ => 0⟩

/-- Concrete all-ones weights of shape (2, 2, 1). -/
def cW : Tensor := ⟨[2, 2, 1], fun _ => 1⟩

/-- Concrete all-ones weights of shape (2, 2, 2, 1). -/
def cW3 : Tensor := ⟨[2, 2, 2, 1], fun _ => 1⟩

/-- Concrete all-zeros tensor of shape (2, 2, 2, 1), standing for a
random-normal draw distinct from cW3. -/
def cR3 : Tensor := ⟨[2, 2, 2, 1], fun _ => 0⟩

/-- Concrete input batch of shape (1, 2, 2, 1): one sample, block (2, 2),
singleton trailing axis. -/
def cV2 : Tensor := ⟨[1, 2, 2, 1], fun _ => 1⟩

/-- Concrete input batch of shape (1, 2, 2, 2, 1): one sample, block
(2, 2, 2), singleton trailing axis. -/
def cV3 : Tensor := ⟨[1, 2, 2, 2, 1], fun _ => 1⟩

/-- Concrete input batch of shape (1, 2, 2, 2): one sample, block (2, 2),
trailing axis of size 2. -/
def cV2K2 : Tensor := ⟨[1, 2, 2, 2], fun _ => 1⟩

/-- The model built by the constructor for ll = (2, 2), num_hiddens = 1,
h_embed = true, Nq unset, use_logits only, explicit weights cW and
schedule parameters (r, min, init) = (1, 0, 2). -/
def Mw2 : CGModel :=
  ⟨none, 0, some (.conv2 cW), some "pseudo-categorical sampling",
   some ⟨1, 0, 2⟩, some [.conv2 cW, .flatten, .embed .bernoulliLogits]⟩

/-- The model built by the constructor for ll = (2, 2), num_hiddens = 1,
h_embed = true, Nq unset, use_probs selected, explicit weights cW. -/
def Mw6 : CGModel :=
  ⟨none, 0, some (.conv2 cW), some "pseudo-categorical sampling",
   some ⟨1, 0, 2⟩,
   some [.conv2 cW, .activation .softmax, .flatten, .embed .bernoulliProbs]⟩

/-- The model built by the constructor for ll = (2, 2), h_embed = false,
explicit weights cW, activation name tanh. -/
def Md2 : CGModel :=
  ⟨none, 0, some (.conv2 cW), some "convolved variables", none,
   some [.conv2 cW, .activation (.named "tanh"), .flatten]⟩

/-- The model built by the constructor for ll = (2, 2, 2), h_embed =
false, random draw cR3, activation name tanh. -/
def Md3 : CGModel :=
  ⟨none, 0, some (.conv3 cR3), some "convolved variables", none,
   some [.conv3 cR3, .activation (.named "tanh"), .flatten]⟩

/-- On a rank-4 input whose spatial extents match the rank-3 weights, the
2-d einsum succeeds and yields the spatial contraction, batched over the
first axis and broadcast over the trailing axis. -/
theorem conv2DSingleCall_eq (t I J K S : ℕ) (f w : List ℕ → ℚ) :
    conv2DSingleCall ⟨[t, I, J, K], f⟩ ⟨[I, J, S], w⟩ =
      some ⟨[t, S, K], fun idx =>
        match idx with
        | [tt, ss, kk] =>
            ∑ ii ∈ Finset.range I, ∑ jj ∈ Finset.range J,
              f [tt, ii, jj, kk] * w [ii, jj, ss]
        | _ => 0⟩ := by
  simp [conv2DSingleCall]

/-- On a rank-5 input whose spatial extents match the rank-4 weights, the
3-d einsum succeeds and yields the spatial contraction. -/
theorem conv3DSingleCall_eq (t I J K L S : ℕ) (f w : List ℕ → ℚ) :
    conv3DSingleCall ⟨[t, I, J, K, L], f⟩ ⟨[I, J, K, S], w⟩ =
      some ⟨[t, S, L], fun idx =>
        match idx with
        | [tt, ss, ll] =>
            ∑ ii ∈ Finset.range I, ∑ jj ∈ Finset.range J,
              ∑ kk ∈ Finset.range K,
                f [tt, ii, jj, kk, ll] * w [ii, jj, kk, ss]
        | _ => 0⟩ := by
  simp [conv3DSingleCall]

/-- Shape of a successful 2-d einsum: (batch, hidden, trailing). -/
theorem conv2DSingleCall_shape (x ws : Tensor) (t I J K S : ℕ)
    (hx : x.shape = [t, I, J, K]) (hw : ws.shape = [I, J, S]) :
    (conv2DSingleCall x ws).map Tensor.shape = some [t, S, K] := by
  unfold conv2DSingleCall
  rw [hx, hw]
  simp

/-- Shape of a successful 3-d einsum: (batch, hidden, trailing). -/
theorem conv3DSingleCall_shape (x ws : Tensor) (t I J K L S : ℕ)
    (hx : x.shape = [t, I, J, K, L]) (hw : ws.shape = [I, J, K, S]) :
    (conv3DSingleCall x ws).map Tensor.shape = some [t, S, L] := by
  unfold conv3DSingleCall
  rw [hx, hw]
  simp

/-- Shape of the flatten layer: all axes after the batch axis collapse to
their product. -/
theorem flattenLayer_shape (x : Tensor) (t : ℕ) (rest : List ℕ)
    (hx : x.shape = t :: rest) :
    (flattenLayer x).map Tensor.shape = some [t, rest.prod] := by
  unfold flattenLayer
  rw [hx]
  simp

/-- Running the non-embedding 2-d pipeline (conv, activation, flatten) on
a well-shaped batch yields shape (batch, hidden * trailing), for any
shape-preserving activation semantics. -/
theorem runPipeline_direct2_shape (act : ActKind → Tensor → Tensor)
    (sample : EmbedKind → Tensor → Tensor)
    (hact : ∀ a x, (act a x).shape = x.shape)
    (W V : Tensor) (ca : String) (t I J K S : ℕ)
    (hW : W.shape = [I, J, S]) (hV : V.shape = [t, I, J, K]) :
    (runPipeline act sample
        [.conv2 W, .activation (.named ca), .flatten] V).map Tensor.shape
      = some [t, S * K] := by
  obtain ⟨T, hT, hTs⟩ := Option.map_eq_some'.mp
    (conv2DSingleCall_shape V W t I J K S hV hW)
  have hflat := flattenLayer_shape (act (.named ca) T) t [S, K]
    (by rw [hact, hTs])
  simp only [runPipeline, List.foldlM, runLayer, hT, Option.bind_some,
    Option.bind_eq_bind]
  simpa [mul_one] using hflat

/-- When a linear stage was selected, the non-embedding constructor
builds exactly the conv, activation, flatten pipeline. -/
theorem mkCoarseGrainer_direct (ll : List ℕ) (n : ℕ) (ca : String)
    (Nqv : Option ℕ) (ir : Option Tensor) (r mi it : ℝ) (lg pb : Bool)
    (rd2 rd3 : Tensor) (c : CGLayer)
    (hsel : selectConv ll n ir rd2 rd3 = some c) :
    mkCoarseGrainer ll n ca Nqv false ir r mi it lg pb rd2 rd3 =
      .ok ⟨Nqv, 0, some c, some "convolved variables", none,
           some [c, .activation (.named ca), .flatten]⟩ := by
  simp [mkCoarseGrainer, hsel]

/-- Every successful embedding-mode construction stores the three
annealing scalars and initializes the global step to 0. -/
theorem mkCoarseGrainer_embed_sched (ll : List ℕ) (n : ℕ) (ca : String)
    (Nqv : Option ℕ) (ir : Option Tensor) (r mi it : ℝ) (lg pb : Bool)
    (rd2 rd3 : Tensor) (M : CGModel)
    (h : mkCoarseGrainer ll n ca Nqv true ir r mi it lg pb rd2 rd3 = .ok M) :
    M.sched = some ⟨r, mi, it⟩ ∧ M.global_step = 0 := by
  rcases hsel : selectConv ll n ir rd2 rd3 with _ | c <;>
    cases Nqv <;> cases pb <;> cases lg <;>
      simp [mkCoarseGrainer, hsel] at h <;> simp [← h]

/-- Running the non-embedding 3-d pipeline on a well-shaped batch yields
shape (batch, hidden * trailing). -/
theorem runPipeline_direct3_shape (act : ActKind → Tensor → Tensor)
    (sample : EmbedKind → Tensor → Tensor)
    (hact : ∀ a x, (act a x).shape = x.shape)
    (W V : Tensor) (ca : String) (t I J K L S : ℕ)
    (hW : W.shape = [I, J, K, S]) (hV : V.shape = [t, I, J, K, L]) :
    (runPipeline act sample
        [.conv3 W, .activation (.named ca), .flatten] V).map Tensor.shape
      = some [t, S * L] := by
  obtain ⟨T, hT, hTs⟩ := Option.map_eq_some'.mp
    (conv3DSingleCall_shape V W t I J K L S hV hW)
  have hflat := flattenLayer_shape (act (.named ca) T) t [S, L]
    (by rw [hact, hTs])
  simp only [runPipeline, List.foldlM, runLayer, hT, Option.bind_some,
    Option.bind_eq_bind]
  simpa [mul_one] using hflat

/-- C1 counterexample: the claim asserts that the linear stage accepts a
batch whose per-sample shape is exactly the configured block shape
S = (2, 2) (the spec's forward-call shape (batch_size, *block_shape))
with a weight tensor of shape S + (num_hiddens,) = (2, 2, 1) and returns,
per sample, a (num_hiddens,)-shaped contraction.  The code's einsum
pattern tijk,ijs->tsk requires a rank-4 input, so on a batch of shape
(1, 2, 2) it raises a shape error instead of returning anything. -/
theorem C1_counterexample :
    conv2DSingleCall ⟨[1, 2, 2], fun _ => 1⟩ ⟨[2, 2, 1], fun _ => 1⟩
      = none := rfl

/-- C1 (amended): the linear stage requires one extra trailing axis
beyond the block shape: on input of shape (batch, *S, K) with weights of
shape S + (num_hiddens,), Conv2DSingle.call (2 spatial axes) and
Conv3DSingle.call (3 spatial axes) return, per sample, an output of shape
(num_hiddens, K) whose (s, k) entry contracts every spatial index of the
k-th trailing slice against the matching spatial index of the weights for
hidden channel s and sums, with no bias term.  For K = 1 this is the
claimed per-sample (num_hiddens,) contraction up to the trivial trailing
axis. -/
theorem C1_theorem (t I J K L S : ℕ) (f w f3 w3 : List ℕ → ℚ) :
    (conv2DSingleCall ⟨[t, I, J, K], f⟩ ⟨[I, J, S], w⟩ =
      some ⟨[t, S, K], fun idx =>
        match idx with
        | [tt, ss, kk] =>
            ∑ ii ∈ Finset.range I, ∑ jj ∈ Finset.range J,
              f [tt, ii, jj, kk] * w [ii, jj, ss]
        | _ => 0⟩) ∧
    (conv3DSingleCall ⟨[t, I, J, K, L], f3⟩ ⟨[I, J, K, S], w3⟩ =
      some ⟨[t, S, L], fun idx =>
        match idx with
        | [tt, ss, ll] =>
            ∑ ii ∈ Finset.range I, ∑ jj ∈ Finset.range J,
              ∑ kk ∈ Finset.range K,
                f3 [tt, ii, jj, kk, ll] * w3 [ii, jj, kk, ss]
        | _ => 0⟩) :=
  ⟨conv2DSingleCall_eq t I J K S f w, conv3DSingleCall_eq t I J K L S f3 w3⟩

/-- C5 counterexample: a 3-d construction (ll of length 3) with an
explicit initial weight array cW3 supplied still initializes the weights
to the random-normal draw cR3, not to cW3: the constructor drops
init_rule when dispatching to Conv3DSingle. -/
theorem C5_counterexample :
    (mkCoarseGrainer [2, 2, 2] 1 "tanh" none false (some cW3) 1 0 2
        true false dT cR3).map (fun m => m.coarse_grainer)
      = .ok (some (.conv3 cR3)) ∧ cR3 ≠ cW3 := by
  refine ⟨rfl, fun h => ?_⟩
  have h0 := congrArg (fun T => T.entry []) h
  simp [cR3, cW3] at h0

/-- C5 (amended): for the 2-d variant an explicitly supplied weight array
is used verbatim and only an unsupplied one falls back to the
random-normal draw; the 3-d variant has no explicit-initialization path
at all, so its weights are always the random-normal draw and any supplied
init_rule is silently ignored. -/
theorem C5_theorem (I J K3 n : ℕ) (ca : String) (W rd2 rd3 : Tensor)
    (r mi it : ℝ) (ir : Option Tensor) :
    ((mkCoarseGrainer [I, J] n ca none false (some W) r mi it true false
        rd2 rd3).map (fun m => m.coarse_grainer)
      = .ok (some (.conv2 W))) ∧
    ((mkCoarseGrainer [I, J] n ca none false none r mi it true false
        rd2 rd3).map (fun m => m.coarse_grainer)
      = .ok (some (.conv2 rd2))) ∧
    ((mkCoarseGrainer [I, J, K3] n ca none false ir r mi it true false
        rd2 rd3).map (fun m => m.coarse_grainer)
      = .ok (some (.conv3 rd3))) := by
  refine ⟨?_, ?_, ?_⟩ <;>
    simp [mkCoarseGrainer, selectConv, conv2DSingleInit, conv3DSingleInit,
      Except.map]

/-- C7: with a block shape of length 4 the constructor does not raise an
InvalidShapeError.  With h_embed = true and both interpretation flags
false it completes silently with neither a linear stage nor a pipeline
assigned; with h_embed = false it fails, but with an AttributeError from
referencing the never-assigned linear stage, not with the configuration
error the spec requires. -/
theorem C7_theorem :
    ((mkCoarseGrainer [2, 2, 2, 2] 1 "tanh" none true none 1 0 2
        false false dT dT).map (fun m => (m.coarse_grainer, m.pipeline))
      = .ok (none, none)) ∧
    (mkCoarseGrainer [2, 2, 2, 2] 1 "tanh" none false none 1 0 2
        true false dT dT = .error .attributeError) := ⟨rfl, rfl⟩

/-- C9: when both use_probs and use_logits are passed as true in
embedding mode, construction succeeds and the probs-parameterized
pipeline (including the softmax stage) is built, for Nq unset or set and
for both block dimensionalities: the probs branch is tested first. -/
theorem C9_theorem (I J K3 n : ℕ) (ca : String) (Nqv : Option ℕ)
    (W rd2 rd3 : Tensor) (r mi it : ℝ) (ir : Option Tensor) :
    ((mkCoarseGrainer [I, J] n ca Nqv true (some W) r mi it true true
        rd2 rd3).map (fun m => m.pipeline)
      = .ok (some [.conv2 W, .activation .softmax, .flatten,
                   probsEmbed Nqv])) ∧
    ((mkCoarseGrainer [I, J, K3] n ca Nqv true ir r mi it true true
        rd2 rd3).map (fun m => m.pipeline)
      = .ok (some [.conv3 rd3, .activation .softmax, .flatten,
                   probsEmbed Nqv])) := by
  cases Nqv <;>
    constructor <;>
      simp [mkCoarseGrainer, selectConv, conv2DSingleInit,
        conv3DSingleInit, probsEmbed, Except.map]

/-- C10: with h_embed = true and both use_probs and use_logits false, the
constructor completes without error for every configuration, but assigns
no pipeline, and every subsequent forward call fails with an
attribute-lookup error on the missing pipeline attribute. -/
theorem C10_theorem (ll : List ℕ) (n : ℕ) (ca : String) (Nqv : Option ℕ)
    (ir : Option Tensor) (r mi it : ℝ) (rd2 rd3 : Tensor)
    (act : ActKind → Tensor → Tensor)
    (sample : EmbedKind → Tensor → Tensor) (V : Tensor) :
    (mkCoarseGrainer ll n ca Nqv true ir r mi it false false rd2
        rd3).map (fun m => (m.pipeline, callCG act sample m V))
      = .ok (none, .error .attributeError) := by
  cases Nqv <;> simp [mkCoarseGrainer, callCG, Except.map]

/-- C2: for every CoarseGrainer successfully constructed in embedding
mode and every step value s, the tau read equals
max(min_temperature, init_temperature * exp(-relaxation_rate * s)); that
value is always at least min_temperature; and at step 0 the read yields
init_temperature when init_temperature is at least min_temperature and
min_temperature otherwise. -/
theorem C2_theorem (ll : List ℕ) (n : ℕ) (ca : String) (Nqv : Option ℕ)
    (ir : Option Tensor) (r mi it : ℝ) (lg pb : Bool) (rd2 rd3 : Tensor)
    (M : CGModel) (s : ℝ)
    (h : mkCoarseGrainer ll n ca Nqv true ir r mi it lg pb rd2 rd3
      = .ok M) :
    tauRead (setGlobalStep M s) = .ok (max mi (it * Real.exp (-(r * s)))) ∧
    mi ≤ max mi (it * Real.exp (-(r * s))) ∧
    (mi ≤ it → tauRead (setGlobalStep M 0) = .ok it) ∧
    (it ≤ mi → tauRead (setGlobalStep M 0) = .ok mi) := by
  obtain ⟨hs, -⟩ := mkCoarseGrainer_embed_sched ll n ca Nqv ir r mi it
    lg pb rd2 rd3 M h
  refine ⟨by simp [tauRead, setGlobalStep, tauFun, hs], le_max_left _ _,
    fun hle => ?_, fun hge => ?_⟩
  · simp [tauRead, setGlobalStep, tauFun, hs, Real.exp_zero,
      max_eq_right hle]
  · simp [tauRead, setGlobalStep, tauFun, hs, Real.exp_zero,
      max_eq_left hge]

/-- C2 witness: instantiated at the concrete embedding-mode model Mw2
with (r, min, init) = (1, 0, 2) and step 3. -/
theorem C2_witness :
    tauRead (setGlobalStep Mw2 3)
      = .ok (max 0 (2 * Real.exp (-(1 * 3)))) ∧
    (0 : ℝ) ≤ max 0 (2 * Real.exp (-(1 * 3))) ∧
    ((0 : ℝ) ≤ 2 → tauRead (setGlobalStep Mw2 0) = .ok 2) ∧
    ((2 : ℝ) ≤ 0 → tauRead (setGlobalStep Mw2 0) = .ok 0) :=
  C2_theorem [2, 2] 1 "tanh" none (some cW) 1 0 2 true false dT dT
    Mw2 3 rfl

/-- C3 counterexample: with relaxation_rate = -1, min_temperature = 0 and
init_temperature = 1 the temperature read increases from 1 at step 0 to
exp 1 > 1 at step 1, so tau is not monotonically non-increasing in the
step for every parameter configuration. -/
theorem C3_counterexample :
    (mkCoarseGrainer [2, 2] 1 "tanh" none true (some cW) (-1) 0 1
        true false dT dT).map
        (fun m => (tauRead (setGlobalStep m 0), tauRead (setGlobalStep m 1)))
      = .ok (.ok 1, .ok (Real.exp 1)) ∧ ¬ Real.exp 1 ≤ 1 := by
  constructor
  · have h1 : max (0 : ℝ) (1 * Real.exp (-(-1 * 0))) = 1 := by
      norm_num [Real.exp_zero]
    have h2 : max (0 : ℝ) (1 * Real.exp (-(-1 * 1))) = Real.exp 1 := by
      rw [one_mul]
      norm_num [max_eq_right (Real.exp_pos 1).le]
    simp [mkCoarseGrainer, selectConv, conv2DSingleInit, Except.map,
      tauRead, setGlobalStep, tauFun, h1, h2]
    exact (Real.exp_pos 1).le
  · rw [not_le]
    calc (1 : ℝ) = Real.exp 0 := Real.exp_zero.symm
    _ < Real.exp 1 := Real.exp_lt_exp.mpr zero_lt_one

/-- C3 (amended): for nonnegative relaxation_rate and nonnegative
init_temperature, the temperature read is monotonically non-increasing in
the global step, and it is floored at min_temperature unconditionally. -/
theorem C3_theorem (M : CGModel) (p : SchedParams) (s1 s2 : ℝ)
    (hp : M.sched = some p) (hr : 0 ≤ p.r) (hi : 0 ≤ p.init_tau)
    (hs : s1 ≤ s2) :
    tauRead (setGlobalStep M s2) = .ok (tauFun p s2) ∧
    tauFun p s2 ≤ tauFun p s1 ∧
    p.min_tau ≤ tauFun p s2 := by
  refine ⟨by simp [tauRead, setGlobalStep, hp], ?_, le_max_left _ _⟩
  have hexp : Real.exp (-(p.r * s2)) ≤ Real.exp (-(p.r * s1)) :=
    Real.exp_le_exp.mpr (neg_le_neg (mul_le_mul_of_nonneg_left hs hr))
  exact max_le_max le_rfl (mul_le_mul_of_nonneg_left hexp hi)

/-- C3 witness: instantiated at the concrete model Mw2 with parameters
(r, min, init) = (1, 0, 2) and steps 0 and 1. -/
theorem C3_witness :
    tauRead (setGlobalStep Mw2 1) = .ok (tauFun ⟨1, 0, 2⟩ 1) ∧
    tauFun ⟨1, 0, 2⟩ 1 ≤ tauFun ⟨1, 0, 2⟩ 0 ∧
    (0 : ℝ) ≤ tauFun ⟨1, 0, 2⟩ 1 :=
  C3_theorem Mw2 ⟨1, 0, 2⟩ 0 1 rfl (by norm_num) (by norm_num)
    (by norm_num)

/-- C8: setting the global step via the setter and then immediately
reading tau yields the value recomputed from the new step, whatever the
previous state of the object was: the read caches nothing. -/
theorem C8_theorem (M : CGModel) (p : SchedParams) (s : ℝ)
    (hp : M.sched = some p) :
    tauRead (setGlobalStep M s)
      = .ok (max p.min_tau (p.init_tau * Real.exp (-(p.r * s)))) := by
  simp [tauRead, setGlobalStep, tauFun, hp]

/-- C8 witness: instantiated at the concrete model Mw2 and step 5. -/
theorem C8_witness :
    tauRead (setGlobalStep Mw2 5)
      = .ok (max 0 (2 * Real.exp (-(1 * 5)))) :=
  C8_theorem Mw2 ⟨1, 0, 2⟩ 5 rfl

/-- A layer produced by the dimensionality dispatch is always one of the
two convolution layers. -/
theorem selectConv_conv (ll : List ℕ) (n : ℕ) (ir : Option Tensor)
    (rd2 rd3 : Tensor) (c : CGLayer)
    (h : selectConv ll n ir rd2 rd3 = some c) :
    (∃ w, c = CGLayer.conv2 w) ∨ (∃ w, c = CGLayer.conv3 w) := by
  unfold selectConv at h
  split_ifs at h <;> simp only [Option.some.injEq] at h
  · exact Or.inl ⟨_, h.symm⟩
  · exact Or.inr ⟨_, h.symm⟩

/-- C6: for every successfully constructed embedding-mode CoarseGrainer
(Nq unset or set), the normalizing softmax activation is present in the
assembled pipeline if and only if use_probs was selected; in the
logits-only branches no normalizing activation precedes the sampling
stage, and when no pipeline was assigned there is no softmax either. -/
theorem C6_theorem (ll : List ℕ) (n : ℕ) (ca : String) (Nqv : Option ℕ)
    (ir : Option Tensor) (r mi it : ℝ) (lg pb : Bool) (rd2 rd3 : Tensor)
    (M : CGModel)
    (h : mkCoarseGrainer ll n ca Nqv true ir r mi it lg pb rd2 rd3
      = .ok M) :
    hasSoftmax M = pb := by
  rcases hsel : selectConv ll n ir rd2 rd3 with _ | c
  · cases Nqv <;> cases pb <;> cases lg <;>
      simp [mkCoarseGrainer, hsel] at h <;>
        simp [← h, hasSoftmax]
  · rcases selectConv_conv ll n ir rd2 rd3 c hsel with ⟨w, rfl⟩ | ⟨w, rfl⟩ <;>
      cases Nqv <;> cases pb <;> cases lg <;>
        simp [mkCoarseGrainer, hsel] at h <;>
          simp [← h, hasSoftmax, isSoftmaxLayer]

/-- C6 witness: instantiated at the concrete probs-mode model Mw6, whose
construction uses use_probs = true. -/
theorem C6_witness : hasSoftmax Mw6 = true :=
  C6_theorem [2, 2] 1 "tanh" none (some cW) 1 0 2 false true dT dT
    Mw6 rfl

/-- C4 counterexample: a CoarseGrainer constructed with h_embed = false,
block shape (2, 2) and num_hiddens = 1, applied to an input batch of
shape (1, 2, 2, 2) that the code accepts, returns a tensor of shape
(1, 2), not the claimed (batch, num_hiddens) = (1, 1): the trailing axis
of size 2 survives into the flattened width. -/
theorem C4_counterexample :
    (mkCoarseGrainer [2, 2] 1 "tanh" none false (some cW) 1 0 2 true false
        dT cR3).map
        (fun m => Except.map Tensor.shape (callCG actId sampleId m cV2K2))
      = .ok (.ok [1, 2]) ∧ ([1, 2] : List ℕ) ≠ [1, 1] := by
  exact ⟨rfl, by simp⟩

/-- C4 (amended): for a CoarseGrainer constructed with h_embed = false the
pipeline is the linear stage, then the elementwise activation, then
flatten, and on an input batch of shape (batch, *block_shape, K), for any
shape-preserving activation semantics, the output has shape
(batch, num_hiddens * K) for both 2 and 3 spatial axes; when the trailing
axis is a singleton (K = 1, the intended data layout) this is exactly
(batch, num_hiddens) regardless of block dimensionality. -/
theorem C4_theorem (t I J K3 K S : ℕ) (ca : String) (Nqv : Option ℕ)
    (W rd2 rd3 : Tensor) (r mi it : ℝ) (lg pb : Bool) (ir : Option Tensor)
    (act : ActKind → Tensor → Tensor)
    (sample : EmbedKind → Tensor → Tensor)
    (M2 M3 : CGModel) (V2 V3 : Tensor)
    (hact : ∀ a x, (act a x).shape = x.shape)
    (h2 : mkCoarseGrainer [I, J] S ca Nqv false (some W) r mi it lg pb
      rd2 rd3 = .ok M2)
    (hW : W.shape = [I, J, S])
    (hV2 : V2.shape = [t, I, J, K])
    (h3 : mkCoarseGrainer [I, J, K3] S ca Nqv false ir r mi it lg pb
      rd2 rd3 = .ok M3)
    (hrd3 : rd3.shape = [I, J, K3, S])
    (hV3 : V3.shape = [t, I, J, K3, K]) :
    (Except.map Tensor.shape (callCG act sample M2 V2) = .ok [t, S * K]) ∧
    (Except.map Tensor.shape (callCG act sample M3 V3) = .ok [t, S * K]) ∧
    (K = 1 →
      Except.map Tensor.shape (callCG act sample M2 V2) = .ok [t, S] ∧
      Except.map Tensor.shape (callCG act sample M3 V3) = .ok [t, S]) := by
  have hsel2 : selectConv [I, J] S (some W) rd2 rd3
      = some (.conv2 W) := by
    simp [selectConv, conv2DSingleInit]
  have hsel3 : selectConv [I, J, K3] S ir rd2 rd3
      = some (.conv3 rd3) := by
    simp [selectConv, conv3DSingleInit]
  rw [mkCoarseGrainer_direct [I, J] S ca Nqv (some W) r mi it lg pb
    rd2 rd3 _ hsel2] at h2
  rw [mkCoarseGrainer_direct [I, J, K3] S ca Nqv ir r mi it lg pb
    rd2 rd3 _ hsel3] at h3
  injection h2 with h2
  injection h3 with h3
  subst h2
  subst h3
  obtain ⟨T2, hT2, hT2s⟩ := Option.map_eq_some'.mp
    (runPipeline_direct2_shape act sample hact W V2 ca t I J K S hW hV2)
  obtain ⟨T3, hT3, hT3s⟩ := Option.map_eq_some'.mp
    (runPipeline_direct3_shape act sample hact rd3 V3 ca t I J K3 K S
      hrd3 hV3)
  have e2 : Except.map Tensor.shape
      (callCG act sample
        ⟨Nqv, 0, some (.conv2 W), some "convolved variables", none,
         some [.conv2 W, .activation (.named ca), .flatten]⟩ V2)
      = .ok [t, S * K] := by
    simp [callCG, hT2, hT2s, Except.map]
  have e3 : Except.map Tensor.shape
      (callCG act sample
        ⟨Nqv, 0, some (.conv3 rd3), some "convolved variables", none,
         some [.conv3 rd3, .activation (.named ca), .flatten]⟩ V3)
      = .ok [t, S * K] := by
    simp [callCG, hT3, hT3s, Except.map]
  refine ⟨e2, e3, fun hK => ?_⟩
  subst hK
  rw [mul_one] at e2 e3
  exact ⟨e2, e3⟩

/-- C4 witness: instantiated at block shapes (2, 2) and (2, 2, 2) with
num_hiddens = 1, singleton trailing axis and the identity as the
activation stand-in. -/
theorem C4_witness :
    (Except.map Tensor.shape (callCG actId sampleId Md2 cV2)
      = .ok [1, 1 * 1]) ∧
    (Except.map Tensor.shape (callCG actId sampleId Md3 cV3)
      = .ok [1, 1 * 1]) ∧
    (1 = 1 →
      Except.map Tensor.shape (callCG actId sampleId Md2 cV2)
        = .ok [1, 1] ∧
      Except.map Tensor.shape (callCG actId sampleId Md3 cV3)
        = .ok [1, 1]) :=
  C4_theorem 1 2 2 2 1 1 "tanh" none cW dT cR3 1 0 2 true false none
    actId sampleId Md2 Md3 cV2 cV3 (fun _ _ => rfl) rfl rfl rfl rfl
    rfl rfl
